import Mathlib

/-!
Verification of `crates/edr_napi/src/result.rs`: the transaction-termination
result mapper and the buffer ownership bridge of the `edr_napi` crate.

The embedding follows the source file. Types coming from sibling crates of the
repository (`edr_evm`, `edr_eth`) or from the host runtime (`napi`) are not in
the verified source tree; where their behaviour decides a property they are
modelled from the specification and marked `Modelled from the spec:` in their
doc comment.
-/

set_option autoImplicit false

namespace EdrNapi

/-! ## Byte buffers and addresses (`edr_eth`) -/

namespace edr_eth

/-- Modelled from the spec: `ByteBuffer` — an owned, contiguous, immutable byte
region with reference-counted ownership (`edr_eth::Bytes`). `ptr` is the stable
base address of the region for its whole lifetime, `data` its contents. -/
structure Bytes where
  ptr : Nat
  data : List Nat
deriving DecidableEq, Repr

/-- `Bytes::len`. -/
def Bytes.len (b : Bytes) : Nat := b.data.length

/-- `Bytes::as_ptr`: the base address of the backing memory. -/
def Bytes.asPtr (b : Bytes) : Nat := b.ptr

/-- `Bytes::clone`: a reference-count bump sharing the same backing memory, so
the clone has the same base pointer and the same contents. -/
def Bytes.clone (b : Bytes) : Bytes := b

/-- Modelled from the spec: a 160-bit address (`edr_eth::Address`). -/
structure Address where
  value : Nat
deriving DecidableEq, Repr

/-- `Address::as_slice`: the 20 bytes of the address, big-endian. -/
def Address.asSlice (a : Address) : List Nat :=
  (List.range 20).map (fun i => a.value / 2 ^ (8 * (19 - i)) % 256)

end edr_eth

/-! ## Internal result model (`edr_evm`) -/

namespace edr_evm

/-- `edr_evm::SuccessReason`, the internal success-reason enum; its three
variants appear in the exhaustive matches of the source file. -/
inductive SuccessReason where
  | Stop
  | Return
  | SelfDestruct
deriving DecidableEq, Repr

/-- Modelled from the spec: `edr_evm::OutOfGasError`, the sub-reason carried by
the internal `OutOfGas` halt reason. The source only names the `Basic`
sub-variant; the spec leaves open that further sub-variants exist, modelled
here by `Other`. -/
inductive OutOfGasError where
  | Basic
  | Other (k : Nat)
deriving DecidableEq, Repr

/-- `edr_evm::HaltReason`: the internal halt-reason enum. All 19 variants
appear in the exhaustive match of the source file; the last five are the
internal-only reasons that must never reach a completed transaction result. -/
inductive HaltReason where
  | OutOfGas (err : OutOfGasError)
  | OpcodeNotFound
  | InvalidFEOpcode
  | InvalidJump
  | NotActivated
  | StackUnderflow
  | StackOverflow
  | OutOfOffset
  | CreateCollision
  | PrecompileError
  | NonceOverflow
  | CreateContractSizeLimit
  | CreateContractStartingWithEF
  | CreateInitCodeSizeLimit
  | OverflowPayment
  | StateChangeDuringStaticCall
  | CallNotAllowedInsideStatic
  | OutOfFunds
  | CallTooDeep
deriving DecidableEq, Repr

/-- Modelled from the spec: an internal log entry, an opaque per-entry record;
only its identity matters to the mapper. -/
structure Log where
  tag : Nat
deriving DecidableEq, Repr

/-- `edr_evm::Output`: the output of a successful transaction. -/
inductive Output where
  | Call (returnValue : edr_eth.Bytes)
  | Create (returnValue : edr_eth.Bytes) (address : Option edr_eth.Address)
deriving DecidableEq, Repr

/-- `edr_evm::ExecutionResult`, the internal termination result. Gas fields
are modelled from the spec as non-negative integers (the external numeric type
must hold any value up to `2^256 - 1`). -/
inductive ExecutionResult where
  | Success (reason : SuccessReason) (gas_used gas_refunded : Nat)
      (logs : List Log) (output : Output)
  | Revert (gas_used : Nat) (output : edr_eth.Bytes)
  | Halt (reason : HaltReason) (gas_used : Nat)
deriving DecidableEq, Repr

end edr_evm

/-! ## External enums and their conversions -/

/-- The external `SuccessReason` enum of the source file. -/
inductive SuccessReason where
  | Stop
  | Return
  | SelfDestruct
deriving DecidableEq, Repr

/-- `impl From<edr_evm::SuccessReason> for SuccessReason`. -/
def SuccessReason.fromEvm : edr_evm.SuccessReason → SuccessReason
  | .Stop => .Stop
  | .Return => .Return
  | .SelfDestruct => .SelfDestruct

/-- `impl From<SuccessReason> for edr_evm::SuccessReason`. -/
def SuccessReason.toEvm : SuccessReason → edr_evm.SuccessReason
  | .Stop => .Stop
  | .Return => .Return
  | .SelfDestruct => .SelfDestruct

/-- The external `ExceptionalHalt` enum of the source file: the 14 externally
representable halt reasons. -/
inductive ExceptionalHalt where
  | OutOfGas
  | OpcodeNotFound
  | InvalidFEOpcode
  | InvalidJump
  | NotActivated
  | StackUnderflow
  | StackOverflow
  | OutOfOffset
  | CreateCollision
  | PrecompileError
  | NonceOverflow
  | CreateContractSizeLimit
  | CreateContractStartingWithEF
  | CreateInitCodeSizeLimit
deriving DecidableEq, Repr

/-- `impl From<edr_evm::HaltReason> for ExceptionalHalt`. The `unreachable!`
arm for the five internal-only halt reasons is a panic, modelled as `none`:
the conversion fails fast instead of producing an external value. -/
def ExceptionalHalt.fromHaltReason : edr_evm.HaltReason → Option ExceptionalHalt
  | .OutOfGas _ => some .OutOfGas
  | .OpcodeNotFound => some .OpcodeNotFound
  | .InvalidFEOpcode => some .InvalidFEOpcode
  | .InvalidJump => some .InvalidJump
  | .NotActivated => some .NotActivated
  | .StackUnderflow => some .StackUnderflow
  | .StackOverflow => some .StackOverflow
  | .OutOfOffset => some .OutOfOffset
  | .CreateCollision => some .CreateCollision
  | .PrecompileError => some .PrecompileError
  | .NonceOverflow => some .NonceOverflow
  | .CreateContractSizeLimit => some .CreateContractSizeLimit
  | .CreateContractStartingWithEF => some .CreateContractStartingWithEF
  | .CreateInitCodeSizeLimit => some .CreateInitCodeSizeLimit
  | .OverflowPayment => none
  | .StateChangeDuringStaticCall => none
  | .CallNotAllowedInsideStatic => none
  | .OutOfFunds => none
  | .CallTooDeep => none

/-- `impl From<ExceptionalHalt> for edr_evm::HaltReason`. `OutOfGas` always
reconstructs the `Basic` sub-variant. -/
def ExceptionalHalt.toHaltReason : ExceptionalHalt → edr_evm.HaltReason
  | .OutOfGas => .OutOfGas .Basic
  | .OpcodeNotFound => .OpcodeNotFound
  | .InvalidFEOpcode => .InvalidFEOpcode
  | .InvalidJump => .InvalidJump
  | .NotActivated => .NotActivated
  | .StackUnderflow => .StackUnderflow
  | .StackOverflow => .StackOverflow
  | .OutOfOffset => .OutOfOffset
  | .CreateCollision => .CreateCollision
  | .PrecompileError => .PrecompileError
  | .NonceOverflow => .NonceOverflow
  | .CreateContractSizeLimit => .CreateContractSizeLimit
  | .CreateContractStartingWithEF => .CreateContractStartingWithEF
  | .CreateInitCodeSizeLimit => .CreateInitCodeSizeLimit

/-! ## Host-boundary model (`napi`) -/

/-- Modelled from the spec: a typed host-boundary error (`napi::Error`),
propagated to the caller on host allocation or registration failure. -/
structure NapiError where
  code : Nat
deriving DecidableEq, Repr

/-- Modelled from the spec: the external numeric type (`napi BigInt`) — a sign
bit plus 64-bit limbs, capable of holding any value up to `2^256 - 1` without
loss. Limbs are little-endian. -/
structure BigInt where
  sign_bit : Bool
  words : List Nat
deriving DecidableEq, Repr

/-- Conversion of a non-negative gas quantity into the external numeric type:
four 64-bit limbs, exact for every value up to `2^256 - 1`. -/
def BigInt.fromNat (n : Nat) : BigInt :=
  { sign_bit := false
    words := [n % 2 ^ 64, n / 2 ^ 64 % 2 ^ 64, n / 2 ^ 128 % 2 ^ 64,
      n / 2 ^ 192 % 2 ^ 64] }

/-- The numeric value an external consumer reads back from a `BigInt`
(magnitude of the little-endian 64-bit limbs). -/
def BigInt.toNat (b : BigInt) : Nat :=
  b.words.foldr (fun w acc => w + 2 ^ 64 * acc) 0

/-- Modelled from the spec: the host-visible buffer view (`JsBuffer`). It
records the base address and length of the memory it aliases; it owns no bytes
of its own (zero-copy). -/
structure JsBuffer where
  ptr : Nat
  len : Nat
deriving DecidableEq, Repr

/-- The bytes the host reads through a view: `len` bytes starting at `ptr`,
resolved against the engine-side buffer whose region the view points into. -/
def JsBuffer.viewBytes (v : JsBuffer) (mem : edr_eth.Bytes) : List Nat :=
  (List.range v.len).map (fun i => mem.data.getD (v.ptr + i - mem.ptr) 0)

/-- One observable action at the host boundary. `registered` records a
successful handoff: the view's pointer and length, plus the captured owning
handle whose drop the registered finalizer will perform. `dropped` records a
release action running against a buffer handle. -/
inductive BridgeEvent where
  | registered (ptr len : Nat) (captured : edr_eth.Bytes)
  | dropped (captured : edr_eth.Bytes)
deriving DecidableEq, Repr

/-- The host-boundary state threaded through a conversion: how many
registrations have been attempted, and the trace of boundary events. -/
structure BridgeState where
  nextAlloc : Nat
  events : List BridgeEvent
deriving DecidableEq, Repr

/-- The empty host-boundary state. -/
def BridgeState.empty : BridgeState := { nextAlloc := 0, events := [] }

/-- Modelled from the spec: the external log entry type (`ExecutionLog` from
`crate::log`, which is outside the verified source tree) — opaque. -/
structure ExecutionLog where
  tag : Nat
deriving DecidableEq, Repr

/-- Modelled from the spec: the host runtime handle (`napi::Env`).
`registerFail` says whether the k-th buffer registration fails at the host
(allocation failure, quota) and with which error; `convertLog` is the log
converter (`ExecutionLog::new` of `crate::log`, outside the verified source
tree), which fails the conversion of a single entry with a typed error. -/
structure Env where
  registerFail : Nat → Option NapiError
  convertLog : edr_evm.Log → Except NapiError ExecutionLog

/-- Modelled from the spec: `Env::create_buffer_with_borrowed_data`, the
host's buffer registration facility (§4.2 of the spec). The caller moves in
the owning handle `hint` and a finalizer that drops it. On success the host
builds a view over `(ptr, len)` — the same memory, no copy — and registers the
finalizer for exactly-once invocation at reclamation. On failure the cleanup
path of the failing call releases the moved-in handle exactly once. -/
def Env.create_buffer_with_borrowed_data (env : Env) (st : BridgeState)
    (ptr len : Nat) (hint : edr_eth.Bytes) :
    Except NapiError JsBuffer × BridgeState :=
  match env.registerFail st.nextAlloc with
  | some e =>
    (Except.error e,
      { nextAlloc := st.nextAlloc + 1
        events := st.events ++ [BridgeEvent.dropped hint] })
  | none =>
    (Except.ok { ptr := ptr, len := len },
      { nextAlloc := st.nextAlloc + 1
        events := st.events ++ [BridgeEvent.registered ptr len hint] })

/-- Modelled from the spec: the host collector eventually reclaims every view
and invokes each registered finalizer exactly once; the finalizer registered
by this code drops the captured handle. `finalizeAll` lists the release
actions that reclamation performs for a given event trace. -/
def finalizeAll (evs : List BridgeEvent) : List BridgeEvent :=
  evs.filterMap (fun e =>
    match e with
    | .registered _ _ captured => some (.dropped captured)
    | .dropped _ => none)

/-- How many release actions run against buffer `b` over the whole lifetime of
a conversion whose boundary trace is `evs`: drops during the conversion itself
plus drops performed by the host's eventual reclamation. -/
def lifetimeDropCount (b : edr_eth.Bytes) (evs : List BridgeEvent) : Nat :=
  (evs ++ finalizeAll evs).count (BridgeEvent.dropped b)

/-! ## External result structs -/

/-- `napi::Either`. -/
inductive Either (L R : Type) where
  | A (value : L)
  | B (value : R)
deriving DecidableEq, Repr

/-- `napi::Either3`. -/
inductive Either3 (L M R : Type) where
  | A (value : L)
  | B (value : M)
  | C (value : R)
deriving DecidableEq, Repr

/-- `CallOutput`. -/
structure CallOutput where
  return_value : JsBuffer
deriving DecidableEq, Repr

/-- `CreateOutput`. `address` is a host-side `Buffer`, a plain copy of the
address bytes, made by `Buffer::from(address.as_slice())`. -/
structure CreateOutput where
  return_value : JsBuffer
  address : Option (List Nat)
deriving DecidableEq, Repr

/-- `SuccessResult`. -/
structure SuccessResult where
  reason : SuccessReason
  gas_used : BigInt
  gas_refunded : BigInt
  logs : List ExecutionLog
  output : Either CallOutput CreateOutput
deriving DecidableEq, Repr

/-- `RevertResult`. -/
structure RevertResult where
  gas_used : BigInt
  output : JsBuffer
deriving DecidableEq, Repr

/-- `HaltResult`. -/
structure HaltResult where
  reason : ExceptionalHalt
  gas_used : BigInt
deriving DecidableEq, Repr

/-- `ExecutionResult`, the external result object. -/
structure ExecutionResult where
  result : Either3 SuccessResult RevertResult HaltResult
deriving DecidableEq, Repr

/-- `iter().map(f).collect::<napi::Result<Vec<_>>>()`: converts each element
in order, stopping at the first error. -/
def collectResults {α β : Type} (f : α → Except NapiError β) :
    List α → Except NapiError (List β)
  | [] => .ok []
  | x :: xs =>
    match f x with
    | .error e => .error e
    | .ok y =>
      match collectResults f xs with
      | .error e => .error e
      | .ok ys => .ok (y :: ys)

/-- The outcome of `ExecutionResult::new`: a panic (the `unreachable!` arm),
a propagated `napi::Result` error, or the converted result. -/
inductive ConvOutcome where
  | panicked
  | failed (e : NapiError)
  | ok (r : ExecutionResult)
deriving DecidableEq, Repr

/-- `ExecutionResult::new`, the result taxonomy mapper of the source file,
threaded through the host-boundary state. -/
def ExecutionResult.new (env : Env) (result : edr_evm.ExecutionResult)
    (st : BridgeState) : ConvOutcome × BridgeState :=
  match result with
  | .Success reason gas_used gas_refunded logs output =>
    match collectResults env.convertLog logs with
    | .error e => (.failed e, st)
    | .ok logs' =>
      match output with
      | .Call return_value0 =>
        let return_value := return_value0.clone
        match env.create_buffer_with_borrowed_data st return_value.asPtr
            return_value.len return_value with
        | (.error e, st') => (.failed e, st')
        | (.ok v, st') =>
          let s : SuccessResult :=
            { reason := SuccessReason.fromEvm reason
              gas_used := BigInt.fromNat gas_used
              gas_refunded := BigInt.fromNat gas_refunded
              logs := logs'
              output := Either.A { return_value := v } }
          (.ok { result := Either3.A s }, st')
      | .Create return_value0 address =>
        let return_value := return_value0.clone
        match env.create_buffer_with_borrowed_data st return_value.asPtr
            return_value.len return_value with
        | (.error e, st') => (.failed e, st')
        | (.ok v, st') =>
          let s : SuccessResult :=
            { reason := SuccessReason.fromEvm reason
              gas_used := BigInt.fromNat gas_used
              gas_refunded := BigInt.fromNat gas_refunded
              logs := logs'
              output := Either.B
                { return_value := v
                  address := address.map (fun a => a.asSlice) } }
          (.ok { result := Either3.A s }, st')
  | .Revert gas_used output0 =>
    let output := output0.clone
    match env.create_buffer_with_borrowed_data st output.asPtr
        output.len output with
    | (.error e, st') => (.failed e, st')
    | (.ok v, st') =>
      let r : RevertResult := { gas_used := BigInt.fromNat gas_used, output := v }
      (.ok { result := Either3.B r }, st')
  | .Halt reason gas_used =>
    match ExceptionalHalt.fromHaltReason reason with
    | none => (.panicked, st)
    | some r =>
      let h : HaltResult := { reason := r, gas_used := BigInt.fromNat gas_used }
      (.ok { result := Either3.C h }, st)

/-! ## Helper lemmas -/

/-- The four-limb conversion is exact for every value up to `2^256 - 1`. -/
theorem toNat_fromNat (n : Nat) (hn : n ≤ 2 ^ 256 - 1) :
    (BigInt.fromNat n).toNat = n := by
  simp only [BigInt.fromNat, BigInt.toNat, List.foldr]
  have h64 : (2 : Nat) ^ 64 = 18446744073709551616 := by norm_num
  have h128 : (2 : Nat) ^ 128 = 340282366920938463463374607431768211456 := by
    norm_num
  have h192 : (2 : Nat) ^ 192 =
      6277101735386680763835789423207666416102355444464034512896 := by
    norm_num
  have h256 : (2 : Nat) ^ 256 =
      115792089237316195423570985008687907853269984665640564039457584007913129639936 := by
    norm_num
  rw [h64, h128, h192] at *
  rw [h256] at hn
  omega

/-- Reading a whole list back through positional default indexing. -/
theorem map_getD_range (l : List Nat) :
    (List.range l.length).map (fun i => l.getD i 0) = l := by
  apply List.ext_getElem
  · simp
  · intro i h1 h2
    simp [List.getD_eq_getElem?_getD, List.getElem?_eq_getElem h2]

/-- A view with the buffer's own base pointer and length reads back exactly
the buffer's contents. -/
theorem viewBytes_self (b : edr_eth.Bytes) :
    JsBuffer.viewBytes { ptr := b.asPtr, len := b.len } b = b.data := by
  simp only [JsBuffer.viewBytes, edr_eth.Bytes.asPtr, edr_eth.Bytes.len]
  have : ∀ i : Nat, b.ptr + i - b.ptr = i := fun i => by omega
  simp only [this]
  exact map_getD_range b.data

/-- Successful collection converts pointwise, in order. -/
theorem collectResults_ok_forall₂ {α β : Type} (f : α → Except NapiError β) :
    ∀ (xs : List α) (ys : List β), collectResults f xs = .ok ys →
      List.Forall₂ (fun a b => f a = .ok b) xs ys := by
  intro xs
  induction xs with
  | nil =>
    intro ys h
    simp only [collectResults] at h
    cases h
    exact List.Forall₂.nil
  | cons x xs ih =>
    intro ys h
    simp only [collectResults] at h
    cases hx : f x with
    | error e => rw [hx] at h; cases h
    | ok y =>
      rw [hx] at h
      cases hxs : collectResults f xs with
      | error e => rw [hxs] at h; cases h
      | ok ys' =>
        rw [hxs] at h
        cases h
        exact List.Forall₂.cons hx (ih ys' hxs)

/-- Collection stops at the first failing element and returns its error. -/
theorem collectResults_error_of_prefix_ok {α β : Type}
    (f : α → Except NapiError β) (l : α) (e : NapiError)
    (hl : f l = .error e) :
    ∀ (pre : List α), (∀ a ∈ pre, ∃ b, f a = .ok b) →
      ∀ post : List α, collectResults f (pre ++ l :: post) = .error e := by
  intro pre
  induction pre with
  | nil =>
    intro _ post
    simp only [List.nil_append, collectResults, hl]
  | cons p pre ih =>
    intro hpre post
    obtain ⟨b, hb⟩ := hpre p (List.mem_cons_self p pre)
    have h2 := ih (fun a ha => hpre a (List.mem_cons_of_mem p ha)) post
    simp only [List.cons_append, collectResults, hb, List.append_eq, h2]

/-! ## Claim theorems -/

/-- C2: each of the five internal-only halt reasons fails fast (the
`unreachable!` panic, modelled as `none`) instead of silently mapping to one
of the 14 external `ExceptionalHalt` values. -/
theorem internal_only_halt_reasons_fail_fast :
    ExceptionalHalt.fromHaltReason .OverflowPayment = none ∧
    ExceptionalHalt.fromHaltReason .StateChangeDuringStaticCall = none ∧
    ExceptionalHalt.fromHaltReason .CallNotAllowedInsideStatic = none ∧
    ExceptionalHalt.fromHaltReason .OutOfFunds = none ∧
    ExceptionalHalt.fromHaltReason .CallTooDeep = none :=
  ⟨rfl, rfl, rfl, rfl, rfl⟩

/-- C3: converting a gas quantity to the external numeric representation and
reading it back is the identity for every value up to `2^256 - 1` — no
truncation or precision loss. -/
theorem gas_roundtrip_exact (g : Nat) (hg : g ≤ 2 ^ 256 - 1) :
    (BigInt.fromNat g).toNat = g :=
  toNat_fromNat g hg

/-- C3 witness: the round trip is exact at the largest representable value. -/
theorem gas_roundtrip_exact_witness :
    2 ^ 256 - 1 ≤ 2 ^ 256 - 1 ∧
    (BigInt.fromNat (2 ^ 256 - 1)).toNat = 2 ^ 256 - 1 :=
  ⟨Nat.le_refl _, gas_roundtrip_exact (2 ^ 256 - 1) (Nat.le_refl _)⟩

/-- C4: external→internal→external is the identity on all 3 `SuccessReason`
values and all 14 external `ExceptionalHalt` values. -/
theorem external_enum_roundtrip_identity :
    (∀ s : SuccessReason, SuccessReason.fromEvm (SuccessReason.toEvm s) = s) ∧
    (∀ h : ExceptionalHalt,
      ExceptionalHalt.fromHaltReason (ExceptionalHalt.toHaltReason h) = some h) :=
  ⟨fun s => by cases s <;> rfl, fun h => by cases h <;> rfl⟩

/-- C9: every internal `OutOfGas(e)` maps forward to the single external
`OutOfGas`; the reverse mapping always reconstructs `OutOfGas(Basic)`; hence
internal→external→internal is the identity on the reasons in the external
image except that `OutOfGas(e)` comes back as `OutOfGas(Basic)`. -/
theorem out_of_gas_mapping_lossy_to_basic (h : edr_evm.HaltReason)
    (x : ExceptionalHalt) (hx : ExceptionalHalt.fromHaltReason h = some x) :
    (∀ e, ExceptionalHalt.fromHaltReason (.OutOfGas e) = some .OutOfGas) ∧
    ExceptionalHalt.toHaltReason .OutOfGas = .OutOfGas .Basic ∧
    (ExceptionalHalt.toHaltReason x = h ∨
      ∃ e, h = .OutOfGas e ∧
        ExceptionalHalt.toHaltReason x = .OutOfGas .Basic) := by
  refine ⟨fun e => rfl, rfl, ?_⟩
  cases h with
  | OutOfGas e =>
    cases hx
    exact Or.inr ⟨e, rfl, rfl⟩
  | _ => first
    | (cases hx; exact Or.inl rfl)
    | cases hx

/-- C9 witness: instantiated at `StackUnderflow`. -/
theorem out_of_gas_mapping_lossy_to_basic_witness :
    (∀ e, ExceptionalHalt.fromHaltReason (.OutOfGas e) = some .OutOfGas) ∧
    ExceptionalHalt.toHaltReason .OutOfGas = .OutOfGas .Basic ∧
    (ExceptionalHalt.toHaltReason .StackUnderflow = .StackUnderflow ∨
      ∃ e, edr_evm.HaltReason.StackUnderflow = .OutOfGas e ∧
        ExceptionalHalt.toHaltReason .StackUnderflow = .OutOfGas .Basic) :=
  out_of_gas_mapping_lossy_to_basic .StackUnderflow .StackUnderflow rfl

/-- C10: on a `Halt` input whose reason is externally representable,
`ExecutionResult::new` always succeeds, and the host-boundary state is
untouched: no buffer allocation and no log conversion happens on this path. -/
theorem halt_branch_never_fails (env : Env) (st : BridgeState)
    (reason : edr_evm.HaltReason) (gas : Nat) (x : ExceptionalHalt)
    (hx : ExceptionalHalt.fromHaltReason reason = some x) :
    ExecutionResult.new env (.Halt reason gas) st =
      (.ok ⟨Either3.C ⟨x, BigInt.fromNat gas⟩⟩, st) := by
  simp only [ExecutionResult.new, hx]

/-- A host environment whose registrations always succeed and whose log
converter never fails; used to instantiate theorems at concrete inputs. -/
def envOk : Env :=
  { registerFail := fun _ => none
    convertLog := fun l => .ok { tag := l.tag } }

/-- A concrete four-byte buffer, `0xdeadbeef` at base address 100. -/
def bytesDead : edr_eth.Bytes := { ptr := 100, data := [222, 173, 190, 239] }

/-- C10 witness: a `Halt` on `OutOfGas(Basic)` converts without failure and
without touching the host-boundary state. -/
theorem halt_branch_never_fails_witness :
    ExecutionResult.new envOk (.Halt (.OutOfGas .Basic) 5000) BridgeState.empty =
      (.ok ⟨Either3.C ⟨.OutOfGas, BigInt.fromNat 5000⟩⟩, BridgeState.empty) :=
  halt_branch_never_fails envOk BridgeState.empty (.OutOfGas .Basic) 5000
    .OutOfGas rfl

/-- The correspondence C1 asserts between an internal termination result and
the external object produced from it: matching active variant, mapped reason,
and numerically exact gas fields. -/
def variantCorresponds : edr_evm.ExecutionResult → ExecutionResult → Prop
  | .Success reason gu gr _ _, r =>
    ∃ s, r.result = Either3.A s ∧ s.reason = SuccessReason.fromEvm reason ∧
      s.gas_used = BigInt.fromNat gu ∧ s.gas_refunded = BigInt.fromNat gr ∧
      (gu ≤ 2 ^ 256 - 1 → s.gas_used.toNat = gu) ∧
      (gr ≤ 2 ^ 256 - 1 → s.gas_refunded.toNat = gr)
  | .Revert gu _, r =>
    ∃ rv, r.result = Either3.B rv ∧ rv.gas_used = BigInt.fromNat gu ∧
      (gu ≤ 2 ^ 256 - 1 → rv.gas_used.toNat = gu)
  | .Halt reason gu, r =>
    ∃ hr, r.result = Either3.C hr ∧
      ExceptionalHalt.fromHaltReason reason = some hr.reason ∧
      hr.gas_used = BigInt.fromNat gu ∧
      (gu ≤ 2 ^ 256 - 1 → hr.gas_used.toNat = gu)

/-- C1: whenever `ExecutionResult::new` succeeds, the external object's active
variant corresponds 1:1 to the internal one (Success to `SuccessResult`,
Revert to `RevertResult`, Halt to `HaltResult`) and the scalar fields
(`reason`, `gas_used`, `gas_refunded`) are exact copies. -/
theorem executionResult_new_variant_correspondence (env : Env)
    (res : edr_evm.ExecutionResult) (st st' : BridgeState)
    (r : ExecutionResult)
    (h : ExecutionResult.new env res st = (.ok r, st')) :
    variantCorresponds res r := by
  cases res with
  | Success reason gu gr logs output =>
    simp only [ExecutionResult.new] at h
    cases hc : collectResults env.convertLog logs with
    | error e => rw [hc] at h; simp at h
    | ok logs' =>
      rw [hc] at h
      cases output with
      | Call rv =>
        simp only [Env.create_buffer_with_borrowed_data] at h
        cases hf : env.registerFail st.nextAlloc with
        | some e => rw [hf] at h; simp at h
        | none =>
          rw [hf] at h
          simp only [Prod.mk.injEq, ConvOutcome.ok.injEq] at h
          obtain ⟨h1, h2⟩ := h
          subst h1
          exact ⟨_, rfl, rfl, rfl, rfl, fun hb => toNat_fromNat gu hb,
            fun hb => toNat_fromNat gr hb⟩
      | Create rv addr =>
        simp only [Env.create_buffer_with_borrowed_data] at h
        cases hf : env.registerFail st.nextAlloc with
        | some e => rw [hf] at h; simp at h
        | none =>
          rw [hf] at h
          simp only [Prod.mk.injEq, ConvOutcome.ok.injEq] at h
          obtain ⟨h1, h2⟩ := h
          subst h1
          exact ⟨_, rfl, rfl, rfl, rfl, fun hb => toNat_fromNat gu hb,
            fun hb => toNat_fromNat gr hb⟩
  | Revert gu output =>
    simp only [ExecutionResult.new, Env.create_buffer_with_borrowed_data] at h
    cases hf : env.registerFail st.nextAlloc with
    | some e => rw [hf] at h; simp at h
    | none =>
      rw [hf] at h
      simp only [Prod.mk.injEq, ConvOutcome.ok.injEq] at h
      obtain ⟨h1, h2⟩ := h
      subst h1
      exact ⟨_, rfl, rfl, fun hb => toNat_fromNat gu hb⟩
  | Halt reason gu =>
    simp only [ExecutionResult.new] at h
    cases hr : ExceptionalHalt.fromHaltReason reason with
    | none => rw [hr] at h; simp at h
    | some x =>
      rw [hr] at h
      simp only [Prod.mk.injEq, ConvOutcome.ok.injEq] at h
      obtain ⟨h1, h2⟩ := h
      subst h1
      exact ⟨_, rfl, hr, rfl, fun hb => toNat_fromNat gu hb⟩

/-- The external object produced from a concrete successful `Call`
transaction, used to instantiate C1. -/
def callSuccessResult : ExecutionResult :=
  { result := Either3.A
      { reason := .Return
        gas_used := BigInt.fromNat 21000
        gas_refunded := BigInt.fromNat 0
        logs := [⟨1⟩]
        output := Either.A ⟨⟨100, 4⟩⟩ } }

/-- C1 witness: the correspondence at a concrete successful `Call` result. -/
theorem executionResult_new_variant_correspondence_witness :
    variantCorresponds (.Success .Return 21000 0 [⟨1⟩] (.Call bytesDead))
      callSuccessResult :=
  executionResult_new_variant_correspondence envOk
    (.Success .Return 21000 0 [⟨1⟩] (.Call bytesDead)) BridgeState.empty
    ⟨1, [.registered 100 4 bytesDead]⟩ callSuccessResult rfl

/-- C8: in a converted `Create` output the external `address` is `None`
exactly when the internal result carries no deployed address; otherwise it is
the 20-byte buffer holding the internal address — absence is never encoded as
an all-zero placeholder. -/
theorem create_address_absent_or_twenty_bytes (env : Env)
    (reason : edr_evm.SuccessReason) (gu gr : Nat) (logs : List edr_evm.Log)
    (rv : edr_eth.Bytes) (addr : Option edr_eth.Address)
    (st st' : BridgeState) (r : ExecutionResult)
    (h : ExecutionResult.new env (.Success reason gu gr logs (.Create rv addr))
      st = (.ok r, st')) :
    ∃ s co, r.result = Either3.A s ∧ s.output = Either.B co ∧
      (co.address = none ↔ addr = none) ∧
      ∀ a, addr = some a →
        co.address = some a.asSlice ∧ a.asSlice.length = 20 := by
  simp only [ExecutionResult.new] at h
  cases hc : collectResults env.convertLog logs with
  | error e => rw [hc] at h; simp at h
  | ok logs' =>
    rw [hc] at h
    simp only [Env.create_buffer_with_borrowed_data] at h
    cases hf : env.registerFail st.nextAlloc with
    | some e => rw [hf] at h; simp at h
    | none =>
      rw [hf] at h
      simp only [Prod.mk.injEq, ConvOutcome.ok.injEq] at h
      obtain ⟨h1, h2⟩ := h
      subst h1
      refine ⟨_, _, rfl, rfl, ?_, ?_⟩
      · cases addr <;> simp
      · intro a ha
        subst ha
        refine ⟨rfl, ?_⟩
        simp [edr_eth.Address.asSlice]

/-- The external object produced from a concrete successful `Create`
transaction with a deployed address, used to instantiate C8. -/
def createSuccessResult : ExecutionResult :=
  { result := Either3.A
      { reason := .Stop
        gas_used := BigInt.fromNat 3
        gas_refunded := BigInt.fromNat 4
        logs := []
        output := Either.B
          { return_value := ⟨100, 4⟩
            address := some (edr_eth.Address.asSlice ⟨4660⟩) } } }

/-- C8 witness: a concrete `Create` output with a deployed address. -/
theorem create_address_absent_or_twenty_bytes_witness :
    ∃ s co, createSuccessResult.result = Either3.A s ∧
      s.output = Either.B co ∧
      (co.address = none ↔ (some (⟨4660⟩ : edr_eth.Address)) = none) ∧
      ∀ a, (some (⟨4660⟩ : edr_eth.Address)) = some a →
        co.address = some a.asSlice ∧ a.asSlice.length = 20 :=
  create_address_absent_or_twenty_bytes envOk .Stop 3 4 [] bytesDead
    (some ⟨4660⟩) BridgeState.empty ⟨1, [.registered 100 4 bytesDead]⟩
    createSuccessResult rfl

/-- C5: over the whole lifetime of a conversion, exactly one release action
runs against each buffer handed to the bridge — at all three bridge sites
(`Call` output, `Create` output, `Revert` output), whether the host
registration succeeds (the registered finalizer drops the captured handle
once at reclamation) or fails (the failing call's cleanup path drops it
once). -/
theorem bridged_buffer_released_exactly_once (env : Env)
    (reason : edr_evm.SuccessReason) (gu gr : Nat) (logs : List edr_evm.Log)
    (logs' : List ExecutionLog) (b : edr_eth.Bytes)
    (addr : Option edr_eth.Address)
    (hlogs : collectResults env.convertLog logs = .ok logs') :
    lifetimeDropCount b (ExecutionResult.new env
      (.Success reason gu gr logs (.Call b)) BridgeState.empty).2.events = 1 ∧
    lifetimeDropCount b (ExecutionResult.new env
      (.Success reason gu gr logs (.Create b addr))
      BridgeState.empty).2.events = 1 ∧
    lifetimeDropCount b (ExecutionResult.new env
      (.Revert gu b) BridgeState.empty).2.events = 1 := by
  simp only [ExecutionResult.new, hlogs, Env.create_buffer_with_borrowed_data,
    BridgeState.empty]
  cases hf : env.registerFail 0 with
  | some e =>
    simp only [hf]
    refine ⟨?_, ?_, ?_⟩ <;>
      simp [lifetimeDropCount, finalizeAll, edr_eth.Bytes.clone,
        List.count_cons, List.count_nil, List.count_append]
  | none =>
    simp only [hf]
    refine ⟨?_, ?_, ?_⟩ <;>
      simp [lifetimeDropCount, finalizeAll, edr_eth.Bytes.clone,
        List.count_cons, List.count_nil, List.count_append]

/-- C5 witness: the concrete buffer `0xdeadbeef` is released exactly once at
each of the three bridge sites. -/
theorem bridged_buffer_released_exactly_once_witness :
    lifetimeDropCount bytesDead (ExecutionResult.new envOk
      (.Success .Return 21000 0 [] (.Call bytesDead))
      BridgeState.empty).2.events = 1 ∧
    lifetimeDropCount bytesDead (ExecutionResult.new envOk
      (.Success .Return 21000 0 [] (.Create bytesDead none))
      BridgeState.empty).2.events = 1 ∧
    lifetimeDropCount bytesDead (ExecutionResult.new envOk
      (.Revert 21000 bytesDead) BridgeState.empty).2.events = 1 :=
  bridged_buffer_released_exactly_once envOk .Return 21000 0 [] [] bytesDead
    none rfl

/-- C6: a buffer view built by a successful conversion aliases the original
buffer's memory — same base pointer, the buffer's exact length, and
byte-for-byte identical contents — at all three bridge sites. -/
theorem bridged_view_zero_copy (env : Env)
    (reason : edr_evm.SuccessReason) (gu gr : Nat) (logs : List edr_evm.Log)
    (b : edr_eth.Bytes) (addr : Option edr_eth.Address)
    (r1 r2 r3 : ExecutionResult) (st1 st2 st3 : BridgeState)
    (h1 : ExecutionResult.new env (.Success reason gu gr logs (.Call b))
      BridgeState.empty = (.ok r1, st1))
    (h2 : ExecutionResult.new env (.Success reason gu gr logs (.Create b addr))
      BridgeState.empty = (.ok r2, st2))
    (h3 : ExecutionResult.new env (.Revert gu b) BridgeState.empty =
      (.ok r3, st3)) :
    (∃ s co, r1.result = Either3.A s ∧ s.output = Either.A co ∧
      co.return_value.ptr = b.asPtr ∧ co.return_value.len = b.len ∧
      co.return_value.viewBytes b = b.data) ∧
    (∃ s co, r2.result = Either3.A s ∧ s.output = Either.B co ∧
      co.return_value.ptr = b.asPtr ∧ co.return_value.len = b.len ∧
      co.return_value.viewBytes b = b.data) ∧
    (∃ rv, r3.result = Either3.B rv ∧
      rv.output.ptr = b.asPtr ∧ rv.output.len = b.len ∧
      rv.output.viewBytes b = b.data) := by
  simp only [ExecutionResult.new, Env.create_buffer_with_borrowed_data,
    BridgeState.empty] at h1 h2 h3
  cases hc : collectResults env.convertLog logs with
  | error e => rw [hc] at h1; simp at h1
  | ok logs' =>
    rw [hc] at h1 h2
    cases hf : env.registerFail 0 with
    | some e => rw [hf] at h1; simp at h1
    | none =>
      rw [hf] at h1 h2 h3
      simp only [Prod.mk.injEq, ConvOutcome.ok.injEq] at h1 h2 h3
      obtain ⟨h1, _⟩ := h1
      obtain ⟨h2, _⟩ := h2
      obtain ⟨h3, _⟩ := h3
      subst h1 h2 h3
      exact ⟨⟨_, _, rfl, rfl, rfl, rfl, viewBytes_self b⟩,
        ⟨_, _, rfl, rfl, rfl, rfl, viewBytes_self b⟩,
        ⟨_, rfl, rfl, rfl, viewBytes_self b⟩⟩

/-- The external object produced from a concrete successful `Create`
transaction without a deployed address, used to instantiate C6. -/
def createNoneSuccessResult : ExecutionResult :=
  { result := Either3.A
      { reason := .Return
        gas_used := BigInt.fromNat 21000
        gas_refunded := BigInt.fromNat 0
        logs := [⟨1⟩]
        output := Either.B { return_value := ⟨100, 4⟩, address := none } } }

/-- The external object produced from a concrete revert, used to
instantiate C6. -/
def revertExternalResult : ExecutionResult :=
  { result := Either3.B { gas_used := BigInt.fromNat 21000, output := ⟨100, 4⟩ } }

/-- C6 witness: the concrete buffer `0xdeadbeef` is exposed zero-copy with
length 4 and identical bytes at each of the three bridge sites. -/
theorem bridged_view_zero_copy_witness :
    (∃ s co, callSuccessResult.result = Either3.A s ∧
      s.output = Either.A co ∧
      co.return_value.ptr = bytesDead.asPtr ∧
      co.return_value.len = bytesDead.len ∧
      co.return_value.viewBytes bytesDead = bytesDead.data) ∧
    (∃ s co, createNoneSuccessResult.result = Either3.A s ∧
      s.output = Either.B co ∧
      co.return_value.ptr = bytesDead.asPtr ∧
      co.return_value.len = bytesDead.len ∧
      co.return_value.viewBytes bytesDead = bytesDead.data) ∧
    (∃ rv, revertExternalResult.result = Either3.B rv ∧
      rv.output.ptr = bytesDead.asPtr ∧ rv.output.len = bytesDead.len ∧
      rv.output.viewBytes bytesDead = bytesDead.data) :=
  bridged_view_zero_copy envOk .Return 21000 0 [⟨1⟩] bytesDead none
    callSuccessResult createNoneSuccessResult revertExternalResult
    ⟨1, [.registered 100 4 bytesDead]⟩ ⟨1, [.registered 100 4 bytesDead]⟩
    ⟨1, [.registered 100 4 bytesDead]⟩ rfl rfl rfl

/-- C7: the external logs list of a converted `Success` result is the
in-order, length-preserving pointwise conversion of the internal logs (the
`Forall₂` relation); and when the logs contain a failing entry (with every
earlier entry converting fine), the whole conversion fails with that entry's
error and no partially-populated result is produced. -/
theorem logs_converted_in_order_or_fail_whole (env : Env)
    (reason : edr_evm.SuccessReason) (gu gr : Nat) (output : edr_evm.Output)
    (st : BridgeState) (logs : List edr_evm.Log) (r : ExecutionResult)
    (st' : BridgeState)
    (h : ExecutionResult.new env (.Success reason gu gr logs output) st =
      (.ok r, st'))
    (pre : List edr_evm.Log) (l : edr_evm.Log) (post : List edr_evm.Log)
    (e : NapiError)
    (hpre : ∀ a ∈ pre, ∃ b, env.convertLog a = .ok b)
    (hl : env.convertLog l = .error e) :
    (∃ s, r.result = Either3.A s ∧
      List.Forall₂ (fun lg elog => env.convertLog lg = .ok elog) logs s.logs) ∧
    ExecutionResult.new env (.Success reason gu gr (pre ++ l :: post) output)
      st = (.failed e, st) := by
  constructor
  · simp only [ExecutionResult.new] at h
    cases hc : collectResults env.convertLog logs with
    | error e2 => rw [hc] at h; simp at h
    | ok logs' =>
      rw [hc] at h
      have hall := collectResults_ok_forall₂ env.convertLog logs logs' hc
      cases output with
      | Call rv =>
        simp only [Env.create_buffer_with_borrowed_data] at h
        cases hf : env.registerFail st.nextAlloc with
        | some e2 => rw [hf] at h; simp at h
        | none =>
          rw [hf] at h
          simp only [Prod.mk.injEq, ConvOutcome.ok.injEq] at h
          obtain ⟨h1, _⟩ := h
          subst h1
          exact ⟨_, rfl, hall⟩
      | Create rv addr =>
        simp only [Env.create_buffer_with_borrowed_data] at h
        cases hf : env.registerFail st.nextAlloc with
        | some e2 => rw [hf] at h; simp at h
        | none =>
          rw [hf] at h
          simp only [Prod.mk.injEq, ConvOutcome.ok.injEq] at h
          obtain ⟨h1, _⟩ := h
          subst h1
          exact ⟨_, rfl, hall⟩
  · simp only [ExecutionResult.new,
      collectResults_error_of_prefix_ok env.convertLog l e hl pre hpre post]

/-- A host environment whose log converter fails on entries tagged 0; used to
instantiate C7. -/
def envLogFail : Env :=
  { registerFail := fun _ => none
    convertLog := fun lg =>
      if lg.tag = 0 then .error { code := 9 } else .ok { tag := lg.tag } }

/-- The external object `envLogFail` produces from a concrete one-log `Call`
success, used to instantiate C7. -/
def callLogSuccessResult : ExecutionResult :=
  { result := Either3.A
      { reason := .Stop
        gas_used := BigInt.fromNat 1
        gas_refunded := BigInt.fromNat 2
        logs := [⟨1⟩]
        output := Either.A ⟨⟨100, 4⟩⟩ } }

/-- C7 witness: a one-entry log list converts in order, and a list whose
second entry fails makes the whole conversion fail with that entry's error. -/
theorem logs_converted_in_order_or_fail_whole_witness :
    (∃ s, callLogSuccessResult.result = Either3.A s ∧
      List.Forall₂ (fun lg elog => envLogFail.convertLog lg = .ok elog)
        [⟨1⟩] s.logs) ∧
    ExecutionResult.new envLogFail
      (.Success .Stop 1 2 ([⟨2⟩] ++ ⟨0⟩ :: []) (.Call bytesDead))
      BridgeState.empty = (.failed ⟨9⟩, BridgeState.empty) :=
  logs_converted_in_order_or_fail_whole envLogFail .Stop 1 2 (.Call bytesDead)
    BridgeState.empty [⟨1⟩] callLogSuccessResult
    ⟨1, [.registered 100 4 bytesDead]⟩ rfl [⟨2⟩] ⟨0⟩ [] ⟨9⟩
    (fun a ha => by
      rw [List.mem_singleton] at ha
      subst ha
      exact ⟨⟨2⟩, rfl⟩)
    rfl

end EdrNapi
